import Mathlib

/-!
Verification development for the ndmg functional-MRI pipeline excerpt
(`ndmg/scripts/ndmg_func_pipeline.py` and `ndmg/utils/bids_utils.py`).

The Python code is shallowly embedded: strings are `String`/`List Char`,
the regular-expression searches of `name_resource.__init__` are modelled by
an executable search function with the exact semantics of the pattern
`(tok)(?!.*tok).*?(?=[_])` used in the source (last occurrence of `tok`
followed, with no intervening newline, by an underscore), fallible Python
code returns `Except PyExc`, and the pipeline worker's calls into external
ndmg modules are driven by an oracle environment `WEnv`.
-/

/-- Python exception values (all constructors model classes deriving from
`Exception`, the class caught by the `except Exception` clause of
`ndmg_func_pipeline`). `stageError` stands for whatever exception an
external pipeline stage (preprocessing, registration, ...) raises. -/
inductive PyExc where
  | nameError (name : String)
  | attributeError (msg : String)
  | typeError (msg : String)
  | stageError (stage : String) (msg : String)
deriving DecidableEq

/-- Does `ch` occur in the list. -/
def hasChar (ch : Char) : List Char → Bool
  | [] => false
  | c :: cs => c == ch || hasChar ch cs

/-- `listStartsWith tok l` holds when `tok` is an initial segment of `l`. -/
def listStartsWith : List Char → List Char → Bool
  | [], _ => true
  | _ :: _, [] => false
  | t :: ts, c :: cs => t == c && listStartsWith ts cs

/-- The negative lookahead `(?!.*tok)` fails exactly when `tok` occurs later
with no newline in between (`.` does not match a newline): this function
returns `true` in that case. -/
def hasLaterTok (tok : List Char) : List Char → Bool
  | [] => listStartsWith tok []
  | c :: cs => listStartsWith tok (c :: cs) || (!(c == '\n') && hasLaterTok tok cs)

/-- Does `tok` occur anywhere in the list (at any offset). -/
def hasSubstr (tok : List Char) : List Char → Bool
  | [] => listStartsWith tok []
  | c :: cs => listStartsWith tok (c :: cs) || hasSubstr tok cs

/-- The lazy scan `.*?(?=[_])`: number of characters consumed before the
first underscore, `none` when a newline (which `.` cannot match) or the end
of the string comes first. -/
def lazyToUnderscore : List Char → Option Nat
  | [] => none
  | c :: cs =>
    if c == '_' then some 0
    else if c == '\n' then none
    else (lazyToUnderscore cs).map (fun k => k + 1)

/-- `re.search` for the source pattern `(tok)(?!.*tok).*?(?=[_])` used for
the `sub-` / `ses-` / `run-` / `res-` tokens in `name_resource.__init__`
(bids_utils.py lines 37-48): the match of the leftmost start position where
`tok` occurs, no further `tok` occurrence follows on the same line, and an
underscore is reachable on the same line; the returned text runs from the
start of `tok` up to (excluding) that underscore. `none` when there is no
match (`re.search` returning `None`). -/
def tokenSearch (tok : List Char) : List Char → Option (List Char)
  | [] => none
  | c :: cs =>
    if listStartsWith tok (c :: cs) && !hasLaterTok tok (List.drop tok.length (c :: cs)) then
      match lazyToUnderscore (List.drop tok.length (c :: cs)) with
      | some k => some (tok ++ List.take k (List.drop tok.length (c :: cs)))
      | none => tokenSearch tok cs
    else tokenSearch tok cs

/-- The `sub-` token of the subject regex. -/
def subTok : List Char := ['s', 'u', 'b', '-']

/-- The `ses-` token of the session regex. -/
def sesTok : List Char := ['s', 'e', 's', '-']

/-- The `run-` token of the run regex. -/
def runTok : List Char := ['r', 'u', 'n', '-']

/-- The `res-` token of the resolution regex. -/
def resTok : List Char := ['r', 'e', 's', '-']

/-- `tok` has no border: no proper nonempty suffix of `tok` is also a
prefix of `tok`.  Every one of the four source tokens satisfies this; it
rules out a second occurrence overlapping the first. -/
def unbordered (tok : List Char) : Bool :=
  (List.range tok.length).all fun k =>
    k == 0 || decide (List.drop k tok ≠ List.take (tok.length - k) tok)

/-- Python `s.split(ch)`: split at every occurrence of `ch` (the result is
never empty; splitting the empty string gives one empty piece). -/
def pySplitOn (ch : Char) : List Char → List (List Char)
  | [] => [[]]
  | c :: cs =>
    if c == ch then [] :: pySplitOn ch cs
    else
      match pySplitOn ch cs with
      | [] => [[c]]
      | p :: ps => (c :: p) :: ps

/-- Python `re.split(r'[._]', s)`: split at every dot or underscore. -/
def splitDotUnderscore : List Char → List (List Char)
  | [] => [[]]
  | c :: cs =>
    if c == '.' || c == '_' then [] :: splitDotUnderscore cs
    else
      match splitDotUnderscore cs with
      | [] => [[c]]
      | p :: ps => (c :: p) :: ps

/-- `os.path.basename`: the part of the path after the last `/`. -/
def osBasename (l : List Char) : List Char :=
  l.foldl (fun acc c => if c == '/' then [] else acc ++ [c]) []

/-- Does the string start with the separator `/`. -/
def strStartsWithSlash (s : String) : Bool :=
  match s.data with
  | [] => false
  | c :: _ => c == '/'

/-- Does the string end with the separator `/`. -/
def strEndsWithSlash (s : String) : Bool :=
  match s.data.getLast? with
  | some c => c == '/'
  | none => false

/-- `os.path.join(a, b)` for POSIX paths, as in CPython: `b` wins when it is
absolute, otherwise a separator is inserted unless `a` is empty or already
ends with one. -/
def osPathJoin2 (a b : String) : String :=
  if strStartsWithSlash b then b
  else if a == "" || strEndsWithSlash a then a ++ b
  else a ++ "/" ++ b

/-- Python `"{}".format(x)` on a value that is either a string or `None`. -/
def pyFormatOptStr : Option String → String
  | none => "None"
  | some s => s

/-- A nested Python dictionary whose leaves are strings, the shape of
`name_resource.dirs`. -/
inductive PyTree where
  | leaf (s : String)
  | dict (entries : List (String × PyTree))

/-- `flatten(current, result)` from bids_utils.py lines 143-149: append
every non-dict leaf of `current` to the (mutable, also returned) list
`result`, recursing through nested dictionaries in iteration order. -/
def flatten : PyTree → List String → List String
  | PyTree.leaf s, result => result ++ [s]
  | PyTree.dict [], result => result
  | PyTree.dict ((_, v) :: rest), result => flatten (PyTree.dict rest) (flatten v result)
termination_by t _ => sizeOf t
decreasing_by
  all_goals simp_wf
  all_goals omega

/-- The in-order list of non-dict leaf values of a nested dictionary (the
specification-side description of what `flatten` accumulates). -/
def leaves : PyTree → List String
  | PyTree.leaf s => [s]
  | PyTree.dict [] => []
  | PyTree.dict ((_, v) :: rest) => leaves v ++ leaves (PyTree.dict rest)
termination_by t => sizeOf t
decreasing_by
  all_goals simp_wf
  all_goals omega

/-- The `name_resource` object of bids_utils.py: the fields set by
`__init__` (double-underscore name mangling dropped), plus the `dirs`
attribute that only exists after `add_dirs` ran (`none` before). -/
structure name_resource where
  subi : String
  anati : String
  sub : String
  ses : Option String
  run : Option String
  temp : String
  space : String
  res : Option String
  basepath : String
  outdir : String
  dirs : Option PyTree

/-- `name_resource._get_outdir`: `os.path.join` of the base path, the
subject token, and — only when the session field is truthy (a non-`None`,
nonempty string) — the session token. -/
def name_resource_outdir_calc (basepath sub : String) (ses : Option String) : String :=
  match ses with
  | none => osPathJoin2 basepath sub
  | some s => if s == "" then osPathJoin2 basepath sub
              else osPathJoin2 (osPathJoin2 basepath sub) s

/-- The message of the `AttributeError` raised when `.group()` is called on
the `None` returned by a failed `re.search`. -/
def attrErrMsg : String := "NoneType object has no attribute group"

/-- `name_resource.__init__(modf, t1wf, tempf, opath)` (bids_utils.py lines
34-51).  The subject regex result is dereferenced unconditionally
(`.group()` on line 37), so a failed subject search raises
`AttributeError`; the session, run and resolution searches are guarded by
`if` and yield `None` fields on failure. -/
def name_resource_init (modf t1wf tempf opath : String) : Except PyExc name_resource :=
  let subi := String.mk ((pySplitOn '.' (osBasename modf.data)).headD [])
  let anati := String.mk ((pySplitOn '.' (osBasename t1wf.data)).headD [])
  match tokenSearch subTok modf.data with
  | none => Except.error (PyExc.attributeError attrErrMsg)
  | some subm =>
    let sesm := tokenSearch sesTok modf.data
    let runm := tokenSearch runTok modf.data
    let temp := String.mk ((pySplitOn '.' (osBasename tempf.data)).headD [])
    let space := String.mk ((splitDotUnderscore temp.data).headD [])
    let resm := tokenSearch resTok tempf.data
    let sub := String.mk subm
    let ses := sesm.map String.mk
    Except.ok
      { subi := subi
        anati := anati
        sub := sub
        ses := ses
        run := runm.map String.mk
        temp := temp
        space := space
        res := resm.map String.mk
        basepath := opath
        outdir := name_resource_outdir_calc opath sub ses
        dirs := none }

/-- `name_resource.get_outdir`. -/
def get_outdir (nr : name_resource) : String := nr.outdir

/-- `name_resource.get_label`: `"label-" + re.split(r'[._]',
os.path.basename(label))[0]`. -/
def get_label (label : String) : String :=
  "label-" ++ String.mk ((splitDotUnderscore (osBasename label.data)).headD [])

/-- `name_resource.get_template_space`:
`"space-{}_res-{}".format(space, res)`, where a `None` resolution prints as
the literal text `None`. -/
def get_template_space (nr : name_resource) : String :=
  "space-" ++ nr.space ++ "_res-" ++ pyFormatOptStr nr.res

/-- `name_resource.name_derivative(folder, derivative)`. -/
def name_derivative (folder derivative : String) : String :=
  osPathJoin2 folder derivative

/-- The `dirtypes` list of `add_dirs`. -/
def dirtypes : List String := ["output", "tmp", "qa"]

/-- The dictionary-of-dictionaries built by `add_dirs` (bids_utils.py lines
61-81): for each directory type a `base` entry plus one entry per `paths`
key, split per parcellation label for the keys listed in `label_dirs`. -/
def add_dirs_calc (outdir : String) (paths : List (String × String))
    (labels : List String) (label_dirs : List String) : PyTree :=
  PyTree.dict (dirtypes.map fun dirt =>
    let addstr := if dirt == "output" then "" else dirt
    (dirt, PyTree.dict
      (("base", PyTree.leaf (osPathJoin2 outdir addstr)) ::
        paths.map fun kp =>
          let newdir := osPathJoin2 (osPathJoin2 outdir addstr) kp.2
          if label_dirs.contains kp.1 then
            (kp.1, PyTree.dict (labels.map fun label =>
              let labname := get_label label
              (labname, PyTree.leaf (osPathJoin2 newdir labname))))
          else (kp.1, PyTree.leaf newdir))))

/-- `name_resource.add_dirs` (bids_utils.py lines 53-85): rebuilds
`self.dirs` from the (unchanged) output directory and returns the flattened
list of directory paths handed to `mkdir -p` (the source calls
`flatten(self.dirs, [])` with an explicit fresh accumulator). -/
def add_dirs (nr : name_resource) (paths : List (String × String))
    (labels : List String) (label_dirs : List String) : name_resource × List String :=
  let tree := add_dirs_calc (get_outdir nr) paths labels label_dirs
  ({ nr with dirs := some tree }, flatten tree [])

/-- Result of `name_resource.__init__`: did the constructor return an
object (rather than raise)? -/
def initOk (modf t1wf tempf opath : String) : Bool :=
  match name_resource_init modf t1wf tempf opath with
  | Except.ok _ => true
  | Except.error _ => false

/-- The subject field of the constructed object, `none` when the
constructor raised. -/
def initSubField (modf t1wf tempf opath : String) : Option String :=
  match name_resource_init modf t1wf tempf opath with
  | Except.ok nr => some nr.sub
  | Except.error _ => none

/-- The session field of the constructed object (`none` when the
constructor raised; `some none` for a `None` session). -/
def initSesField (modf t1wf tempf opath : String) : Option (Option String) :=
  match name_resource_init modf t1wf tempf opath with
  | Except.ok nr => some nr.ses
  | Except.error _ => none

/-- The run field of the constructed object. -/
def initRunField (modf t1wf tempf opath : String) : Option (Option String) :=
  match name_resource_init modf t1wf tempf opath with
  | Except.ok nr => some nr.run
  | Except.error _ => none

/-- The resolution field of the constructed object. -/
def initResField (modf t1wf tempf opath : String) : Option (Option String) :=
  match name_resource_init modf t1wf tempf opath with
  | Except.ok nr => some nr.res
  | Except.error _ => none

/-- `get_outdir` of the constructed object. -/
def initOutdir (modf t1wf tempf opath : String) : Option String :=
  match name_resource_init modf t1wf tempf opath with
  | Except.ok nr => some (get_outdir nr)
  | Except.error _ => none

/-- `get_template_space` of the constructed object. -/
def initTemplateSpace (modf t1wf tempf opath : String) : Option String :=
  match name_resource_init modf t1wf tempf opath with
  | Except.ok nr => some (get_template_space nr)
  | Except.error _ => none

/-- The `space` piece that `__init__` extracts from the template filename
(first `[._]`-separated piece of the dot-free basename). -/
def templateSpaceOf (tempf : String) : String :=
  String.mk ((splitDotUnderscore ((pySplitOn '.' (osBasename tempf.data)).headD [])).headD [])

/-- Is some occurrence of `tok` in the list followed (anywhere later) by an
underscore?  (`tok` itself contains no underscore for the four source
tokens, so "later" may start right after the occurrence's first
character.) -/
def tokThenUnderscore (tok : List Char) : List Char → Bool
  | [] => false
  | c :: cs => (listStartsWith tok (c :: cs) && hasChar '_' cs) || tokThenUnderscore tok cs

/-- Does the filename contain `tokv` as a BIDS-delimited token beginning
with `sub-`: `tokv` is delimiter-free, starts with `sub-`, and is bounded
on each side by a delimiter (`_`, `.`, `/`) or the filename boundary.
This is the specification-side reading of "a filename containing a token
of the form sub-XXX". -/
def containsSubTokenB (modf tokv : String) : Bool :=
  listStartsWith subTok tokv.data &&
  !(hasChar '_' tokv.data || hasChar '.' tokv.data || hasChar '/' tokv.data) &&
  (List.range (modf.data.length + 1)).any fun i =>
    listStartsWith tokv.data (List.drop i modf.data) &&
    (i == 0 || ((List.take i modf.data).getLast?.any fun c =>
      c == '_' || c == '.' || c == '/')) &&
    (match List.drop (i + tokv.data.length) modf.data with
     | [] => true
     | c :: _ => c == '_' || c == '.' || c == '/')

/-- Oracle environment for the pipeline worker: the outcome of each call
into an external ndmg module (`none` = the call returns normally), the
names injected into the module namespace by the star import
`from ndmg.stats.qa_reg import *` (that module is outside this excerpt),
and — in case that import happened to bind `label_name` — the value it
would iterate over. -/
structure WEnv where
  ext : String → Option PyExc
  qaRegExports : List String
  labelNameVal : List String

/-- Run a sequence of named external calls, logging each call made and
stopping at the first one that raises. -/
def runExtCalls (env : WEnv) : List String → List String → List String × Option PyExc
  | [], log => (log, none)
  | n :: ns, log =>
    match env.ext n with
    | some e => (log ++ [n], some e)
    | none => runExtCalls env ns (log ++ [n])

/-- The `paths` dictionary of `ndmg_func_worker` (pipeline lines 76-84),
in source order. -/
def workerPaths : List (String × String) :=
  [("prep_f", "func/preproc"), ("prep_a", "anat/preproc"),
   ("reg_f", "func/registered"), ("reg_a", "anat/registered"),
   ("nuis_f", "func/clean"), ("nuis_a", "func/clean"),
   ("ts_voxel", "func/voxel-timeseries"), ("ts_roi", "func/roi-timeseries"),
   ("conn", "func/connectomes")]

/-- The `label_dirs` list of `ndmg_func_worker` (line 88). -/
def workerLabelDirs : List String := ["ts_roi", "conn"]

/-- The external calls `ndmg_func_worker` makes, in source order, from
`add_dirs`'s `mkdir` shell-out (line 84 of bids_utils.py, reached from
line 90 of the pipeline) up to the voxel-timeseries QA (line 177), i.e.
everything before the ROI-timeseries loop of line 180. -/
def workerCallsBeforeLoop : List String :=
  ["mgu.execute_cmd_mkdir", "qa_func.init", "mgfp.init", "f_prep.preprocess",
   "qc_func.func_preproc_qa", "mgap.init", "a_prep.preprocess",
   "qc_func.anat_preproc_qa", "mgreg.init", "func_reg.self_align",
   "qc_func.self_reg_qa", "func_reg.template_align", "qc_func.temp_reg_qa",
   "mgn.init", "nuis.nuis_correct", "qc_func.nuisance_qa",
   "mgts.voxel_timeseries", "qc_func.voxel_ts_qa"]

/-- The external calls of one iteration of the ROI-timeseries loop
(pipeline lines 180-188), in source order. -/
def roiLoopCalls : List String :=
  ["mgts.roi_timeseries", "mgg.init", "connectome.cor_graph",
   "connectome.summary", "connectome.save_graph", "qc_func.roi_ts_qa"]

/-- The names bound at module level of ndmg_func_pipeline.py (imports on
lines 23-38 — note `sys` is not among them — and the three function
definitions); the loop variable source `label_name` is assigned nowhere in
`ndmg_func_worker`, so Python resolves it against these globals plus
whatever the star import from ndmg.stats.qa_reg provides. -/
def workerModuleGlobals : List String :=
  ["np", "nb", "op", "ArgumentParser", "datetime", "mgu", "mgreg", "mgg",
   "mgts", "qa_func", "mgfp", "mgap", "mgn", "traceback", "name_resource",
   "ndmg_func_worker", "ndmg_func_pipeline", "main"]

/-- `ndmg_func_worker` (pipeline lines 41-200): construct the
`name_resource` namer (line 74, which can itself raise), create the
directory tree (line 90, shelling out to `mkdir`), run the external
preprocessing / registration / nuisance / voxel-timeseries stages in
order, then enter the ROI loop `for idx, label in enumerate(label_name)`
(line 180) — `label_name` resolves against the module globals, raising
`NameError` when unbound.  If the loop did run and `qc_func.save`
returned, line 193 subscripts the `name_resource` object
(`namer['tmp']['base']`), which the (old-style) class does not support, so
the `rm -rf` cleanup of line 198 is unreachable.  Pure path-string
constructions (lines 91-142) do not affect control flow and are carried by
the `add_dirs` result.  Returns the log of external calls made and the
outcome. -/
def ndmg_func_worker (env : WEnv) (func t1w atlas outdir : String)
    (labels : List String) (_clean : Bool) : List String × Except PyExc Unit :=
  match name_resource_init func t1w atlas outdir with
  | Except.error e => ([], Except.error e)
  | Except.ok namer =>
    let _dirs := add_dirs namer workerPaths labels workerLabelDirs
    match runExtCalls env workerCallsBeforeLoop [] with
    | (log, some e) => (log, Except.error e)
    | (log, none) =>
      if "label_name" ∈ workerModuleGlobals ++ env.qaRegExports then
        match runExtCalls env
            (env.labelNameVal.flatMap (fun _ => roiLoopCalls) ++ ["qc_func.save"]) log with
        | (log2, some e) => (log2, Except.error e)
        | (log2, none) =>
          (log2, Except.error (PyExc.attributeError
            "name_resource instance has no attribute __getitem__"))
      else (log, Except.error (PyExc.nameError "label_name"))

/-- `traceback.format_exc()` rendered for an exception value. -/
def formatTraceback (e : PyExc) : String :=
  "Traceback (most recent call last): " ++
    (match e with
     | PyExc.nameError n => "NameError: name " ++ n ++ " is not defined"
     | PyExc.attributeError m => "AttributeError: " ++ m
     | PyExc.typeError m => "TypeError: " ++ m
     | PyExc.stageError s m => s ++ ": " ++ m)

/-- `ndmg_func_pipeline` (pipeline lines 203-240): call the worker inside
`try`; on any `Exception` print the formatted traceback and return; return
normally otherwise.  The first component is everything printed/executed
(the worker's call log, plus the traceback in the exceptional case), the
second the outcome visible to the caller. -/
def ndmg_func_pipeline (env : WEnv) (func t1w atlas outdir : String)
    (labels : List String) (clean : Bool) : List String × Except PyExc Unit :=
  match ndmg_func_worker env func t1w atlas outdir labels clean with
  | (log, Except.ok _) => (log, Except.ok ())
  | (log, Except.error e) => (log ++ [formatTraceback e], Except.ok ())

/-- Outcome of the argument-handling prefix of `main`: either an explicit
process termination with an exit code, or fall-through into the pipeline
with the resolved slice-timing-correction setting. -/
inductive MainOutcome where
  | exited (code : Nat) (msg : String)
  | proceed (stc : Option String)
deriving DecidableEq

/-- Modelled from the spec: `sys` is not imported by
ndmg_func_pipeline.py, so the bare name at lines 275/280 must be supplied
by the star import from ndmg.stats.qa_reg, a module outside this excerpt;
the spec states the exit behavior is a non-zero exit via explicit
termination on invalid input file arguments, so `sys.exit(message)` is
modelled as CPython defines it: print the message and terminate the
process with exit status 1. -/
def sys_exit (msg : String) : MainOutcome := MainOutcome.exited 1 msg

/-- The slice-timing-correction argument handling of `main` (pipeline
lines 271-282): map the literal `"none"` to `None`; when the resulting
setting is `"file"`, an absent `--stc_file` or one that `os.path.isfile`
rejects terminates the process, otherwise the file path becomes the
setting.  `isfile` abstracts the filesystem. -/
def main_stc_check (stcArg : String) (stc_file : Option String)
    (isfile : String → Bool) : MainOutcome :=
  let stc : Option String := if stcArg == "none" then none else some stcArg
  if stc == some "file" then
    match stc_file with
    | none => sys_exit "Selected file option for slice timing correction but did not pass a file. Please select another option or provide a file."
    | some f =>
      if !isfile f then sys_exit "Invalid file for STC provided."
      else MainOutcome.proceed (some f)
  else MainOutcome.proceed stc

/-- Did `main`'s argument handling terminate the process with a non-zero
status? -/
def exitedNonzero : MainOutcome → Bool
  | MainOutcome.exited c _ => c != 0
  | MainOutcome.proceed _ => false

/-- Specification-side reading of claim C7: strip directory components and
the extension(s) — everything from the first dot of the basename on —
leaving underscores alone. -/
def stripExtensions (l : List Char) : List Char := l.takeWhile (fun c => !(c == '.'))

theorem listStartsWith_self_append (l r : List Char) : listStartsWith l (l ++ r) = true := by
  induction l with
  | nil => simp [listStartsWith]
  | cons c cs ih => simp [listStartsWith, ih]

theorem listStartsWith_exists {tok l : List Char} (h : listStartsWith tok l = true) :
    ∃ r, l = tok ++ r := by
  induction tok generalizing l with
  | nil => exact ⟨l, rfl⟩
  | cons t ts ih =>
    cases l with
    | nil => simp [listStartsWith] at h
    | cons c cs =>
      simp only [listStartsWith, Bool.and_eq_true, beq_iff_eq] at h
      obtain ⟨r, hr⟩ := ih h.2
      exact ⟨r, by rw [List.cons_append, ← h.1, ← hr]⟩

theorem hasLaterTok_of_startsWith {tok m : List Char} (h : listStartsWith tok m = true) :
    hasLaterTok tok m = true := by
  cases m with
  | nil => simpa [hasLaterTok] using h
  | cons c cs => simp [hasLaterTok, h]

theorem hasLaterTok_middle (tok l₁ l₂ : List Char) (h : '\n' ∉ l₁) :
    hasLaterTok tok (l₁ ++ (tok ++ l₂)) = true := by
  induction l₁ with
  | nil => exact hasLaterTok_of_startsWith (listStartsWith_self_append tok l₂)
  | cons c l₁' ih =>
    have hc : (c == '\n') = false := by
      apply beq_eq_false_iff_ne.mpr
      intro hh
      exact h (by simp [hh])
    have h' : '\n' ∉ l₁' := fun hh => h (List.mem_cons_of_mem _ hh)
    simp [hasLaterTok, hc, ih h']

theorem hasLaterTok_false (tok l : List Char) (h : hasSubstr tok l = false) :
    hasLaterTok tok l = false := by
  induction l with
  | nil => simpa [hasSubstr, hasLaterTok] using h
  | cons c cs ih =>
    simp only [hasSubstr, Bool.or_eq_false_iff] at h
    simp [hasLaterTok, h.1, ih h.2]

theorem lazyToUnderscore_concat (x b : List Char) (hu : '_' ∉ x) (hn : '\n' ∉ x) :
    lazyToUnderscore (x ++ '_' :: b) = some x.length := by
  induction x with
  | nil => simp [lazyToUnderscore]
  | cons c cs ih =>
    have hc1 : (c == '_') = false := by
      apply beq_eq_false_iff_ne.mpr
      intro hh
      exact hu (by simp [hh])
    have hc2 : (c == '\n') = false := by
      apply beq_eq_false_iff_ne.mpr
      intro hh
      exact hn (by simp [hh])
    have hu' : '_' ∉ cs := fun hh => hu (List.mem_cons_of_mem _ hh)
    have hn' : '\n' ∉ cs := fun hh => hn (List.mem_cons_of_mem _ hh)
    simp [lazyToUnderscore, hc1, hc2, ih hu' hn']

theorem lazyToUnderscore_none (l : List Char) (h : '_' ∉ l) :
    lazyToUnderscore l = none := by
  induction l with
  | nil => rfl
  | cons c cs ih =>
    have hc1 : (c == '_') = false := by
      apply beq_eq_false_iff_ne.mpr
      intro hh
      exact h (by simp [hh])
    have h' : '_' ∉ cs := fun hh => h (List.mem_cons_of_mem _ hh)
    by_cases hc2 : c = '\n'
    · simp [lazyToUnderscore, hc1, hc2]
    · simp [lazyToUnderscore, hc1, hc2, ih h']

theorem hasChar_iff (ch : Char) (l : List Char) : hasChar ch l = true ↔ ch ∈ l := by
  induction l with
  | nil => simp [hasChar]
  | cons c cs ih =>
    simp [hasChar, ih, List.mem_cons]
    constructor
    · rintro (h | h)
      · exact Or.inl h.symm
      · exact Or.inr h
    · rintro (h | h)
      · exact Or.inl h.symm
      · exact Or.inr h

theorem tokenSearch_none_of_no_substr (tok l : List Char) (h : hasSubstr tok l = false) :
    tokenSearch tok l = none := by
  induction l with
  | nil => rfl
  | cons c cs ih =>
    simp only [hasSubstr, Bool.or_eq_false_iff] at h
    simp [tokenSearch, h.1, ih h.2]

theorem tokenSearch_none_of_no_underscore (tok l : List Char) (htok : tok ≠ [])
    (h : tokThenUnderscore tok l = false) : tokenSearch tok l = none := by
  induction l with
  | nil => rfl
  | cons c cs ih =>
    simp only [tokThenUnderscore, Bool.or_eq_false_iff, Bool.and_eq_false_iff] at h
    have ih' := ih h.2
    rcases h.1 with hs | hu
    · simp [tokenSearch, hs, ih']
    · cases hsw : listStartsWith tok (c :: cs) with
      | false => simp [tokenSearch, hsw, ih']
      | true =>
        have hdrop : '_' ∉ List.drop tok.length (c :: cs) := by
          intro hm
          obtain ⟨t, ts, rfl⟩ : ∃ t ts, tok = t :: ts := by
            cases tok with
            | nil => exact absurd rfl htok
            | cons t ts => exact ⟨t, ts, rfl⟩
          rw [List.length_cons, List.drop_succ_cons] at hm
          have : '_' ∈ cs := List.mem_of_mem_drop hm
          rw [← hasChar_iff] at this
          rw [this] at hu
          exact absurd hu (by simp)
        have hlz := lazyToUnderscore_none _ hdrop
        cases hL : hasLaterTok tok (List.drop tok.length (c :: cs)) with
        | true => simp [tokenSearch, hL, ih']
        | false => simp [tokenSearch, hsw, hL, hlz, ih']

theorem unbordered_spec {tok : List Char} (hub : unbordered tok = true)
    {k : Nat} (hk0 : k ≠ 0) (hkn : k < tok.length) :
    List.drop k tok ≠ List.take (tok.length - k) tok := by
  have h := List.all_eq_true.mp hub k (List.mem_range.mpr hkn)
  rcases Bool.or_eq_true_iff.mp h with h | h
  · exact absurd (by simpa using h : k = 0) hk0
  · exact of_decide_eq_true h

theorem tokenSearch_skip (tok a y : List Char)
    (hub : unbordered tok = true) (ha : '\n' ∉ a) :
    tokenSearch tok (a ++ (tok ++ y)) = tokenSearch tok (tok ++ y) := by
  induction a with
  | nil => rfl
  | cons c a' ih =>
    have hc : c ≠ '\n' := fun hh => ha (by simp [hh])
    have ha' : '\n' ∉ a' := fun hh => ha (List.mem_cons_of_mem _ hh)
    have hrest := ih ha'
    rw [List.cons_append]
    cases hsw : listStartsWith tok (c :: (a' ++ (tok ++ y))) with
    | false => simp [tokenSearch, hsw, hrest]
    | true =>
      have hlater : hasLaterTok tok (List.drop tok.length (c :: (a' ++ (tok ++ y)))) = true := by
        rcases le_or_lt tok.length (c :: a').length with hle | hlt
        · have hsplit : List.drop tok.length (c :: (a' ++ (tok ++ y)))
              = List.drop tok.length (c :: a') ++ (tok ++ y) := by
            rw [show c :: (a' ++ (tok ++ y)) = (c :: a') ++ (tok ++ y) from rfl]
            rw [List.drop_append_eq_append_drop, Nat.sub_eq_zero_of_le hle, List.drop_zero]
          rw [hsplit]
          apply hasLaterTok_middle
          intro hm
          have : '\n' ∈ c :: a' := List.mem_of_mem_drop hm
          rcases List.mem_cons.mp this with hh | hh
          · exact hc hh.symm
          · exact ha' hh
        · exfalso
          obtain ⟨r, hr⟩ := listStartsWith_exists hsw
          have hdropped := congrArg (List.drop (c :: a').length) hr
          rw [show c :: (a' ++ (tok ++ y)) = (c :: a') ++ (tok ++ y) from rfl,
            List.drop_left, List.drop_append_eq_append_drop,
            Nat.sub_eq_zero_of_le (Nat.le_of_lt hlt), List.drop_zero] at hdropped
          have htaken := congrArg (List.take (tok.length - (c :: a').length)) hdropped
          rw [List.take_append_eq_append_take,
            Nat.sub_eq_zero_of_le (Nat.sub_le _ _), List.take_zero, List.append_nil,
            List.take_append_eq_append_take, List.length_drop,
            Nat.sub_self, List.take_zero, List.append_nil,
            List.take_of_length_le (le_of_eq (List.length_drop _ _))] at htaken
          exact unbordered_spec hub (by simp) hlt htaken.symm
      simp [tokenSearch, hsw, hlater, hrest]

theorem tokenSearch_last (tok x b : List Char) (htok : tok ≠ [])
    (hxu : '_' ∉ x) (hxn : '\n' ∉ x)
    (hno : hasSubstr tok (x ++ '_' :: b) = false) :
    tokenSearch tok (tok ++ (x ++ '_' :: b)) = some (tok ++ x) := by
  obtain ⟨t, ts, rfl⟩ : ∃ t ts, tok = t :: ts := by
    cases tok with
    | nil => exact absurd rfl htok
    | cons t ts => exact ⟨t, ts, rfl⟩
  rw [List.cons_append]
  have hsw : listStartsWith (t :: ts) (t :: (ts ++ (x ++ '_' :: b))) = true := by
    have := listStartsWith_self_append (t :: ts) (x ++ '_' :: b)
    rwa [List.cons_append] at this
  have hL : hasLaterTok (t :: ts) (x ++ '_' :: b) = false :=
    hasLaterTok_false _ _ hno
  have hlz : lazyToUnderscore (x ++ '_' :: b) = some x.length :=
    lazyToUnderscore_concat x b hxu hxn
  have htk : List.take x.length (x ++ '_' :: b) = x := List.take_left x ('_' :: b)
  simp [tokenSearch, hsw, hL, hlz, htk]

theorem tokenSearch_append (tok a x b : List Char) (htok : tok ≠ [])
    (hub : unbordered tok = true) (ha : '\n' ∉ a) (hxu : '_' ∉ x) (hxn : '\n' ∉ x)
    (hno : hasSubstr tok (x ++ '_' :: b) = false) :
    tokenSearch tok (a ++ (tok ++ (x ++ '_' :: b))) = some (tok ++ x) := by
  rw [tokenSearch_skip tok a (x ++ '_' :: b) hub ha]
  exact tokenSearch_last tok x b htok hxu hxn hno

theorem name_resource_init_ok (modf t1wf tempf opath : String) (subm : List Char)
    (h : tokenSearch subTok modf.data = some subm) :
    name_resource_init modf t1wf tempf opath = Except.ok
      { subi := String.mk ((pySplitOn '.' (osBasename modf.data)).headD [])
        anati := String.mk ((pySplitOn '.' (osBasename t1wf.data)).headD [])
        sub := String.mk subm
        ses := (tokenSearch sesTok modf.data).map String.mk
        run := (tokenSearch runTok modf.data).map String.mk
        temp := String.mk ((pySplitOn '.' (osBasename tempf.data)).headD [])
        space := templateSpaceOf tempf
        res := (tokenSearch resTok tempf.data).map String.mk
        basepath := opath
        outdir := name_resource_outdir_calc opath (String.mk subm)
                    ((tokenSearch sesTok modf.data).map String.mk)
        dirs := none } := by
  unfold name_resource_init
  rw [h]
  rfl

theorem name_resource_init_error (modf t1wf tempf opath : String)
    (h : tokenSearch subTok modf.data = none) :
    name_resource_init modf t1wf tempf opath
      = Except.error (PyExc.attributeError attrErrMsg) := by
  unfold name_resource_init
  rw [h]

theorem initOk_some (modf t1wf tempf opath : String)
    (h : initOk modf t1wf tempf opath = true) :
    ∃ subm, tokenSearch subTok modf.data = some subm := by
  cases hm : tokenSearch subTok modf.data with
  | some s => exact ⟨s, rfl⟩
  | none =>
    unfold initOk at h
    rw [name_resource_init_error modf t1wf tempf opath hm] at h
    simp at h

/-- C3 (amended): the subject regex keeps the LAST `sub-` occurrence of the
modality filename and requires an underscore after it: when the filename
decomposes as `a ++ "sub-" ++ x ++ "_" ++ b` with no newline in `a` or `x`,
no underscore in `x`, and no further `sub-` occurrence in `x ++ "_" ++ b`,
the constructor succeeds and the derived subject field is exactly
`"sub-" ++ x`. -/
theorem C3_subject_token (a x b : List Char) (t1wf tempf opath : String)
    (ha : '\n' ∉ a) (hxu : '_' ∉ x) (hxn : '\n' ∉ x)
    (hno : hasSubstr subTok (x ++ '_' :: b) = false) :
    initSubField (String.mk (a ++ (subTok ++ (x ++ '_' :: b)))) t1wf tempf opath
      = some (String.mk (subTok ++ x)) := by
  have hts : tokenSearch subTok (String.mk (a ++ (subTok ++ (x ++ '_' :: b)))).data
      = some (subTok ++ x) := by
    show tokenSearch subTok (a ++ (subTok ++ (x ++ '_' :: b))) = some (subTok ++ x)
    exact tokenSearch_append subTok a x b (by decide) (by decide) ha hxu hxn hno
  unfold initSubField
  rw [name_resource_init_ok _ t1wf tempf opath _ hts]

/-- C3 witness: a typical single-subject BIDS path, evaluated through the
amended theorem. -/
theorem C3_subject_token_witness :
    initSubField "/input/sub-0025864_task-rest_bold.nii.gz" "t1w.nii" "MNI152.nii" "/out"
      = some "sub-0025864" := by
  have h := C3_subject_token "/input/".data "0025864".data "task-rest_bold.nii.gz".data
    "t1w.nii" "MNI152.nii" "/out" (by decide) (by decide) (by decide) (by decide)
  have e1 : String.mk ("/input/".data ++ (subTok ++ ("0025864".data ++ '_' :: "task-rest_bold.nii.gz".data)))
      = "/input/sub-0025864_task-rest_bold.nii.gz" := by decide
  have e2 : String.mk (subTok ++ "0025864".data) = "sub-0025864" := by decide
  rw [e1, e2] at h
  exact h

/-- C3 counterexample: the filename `sub-A_sub-B_task.nii` contains the
BIDS-delimited token `sub-A`, yet the derived subject field is `sub-B`
(the regex keeps the last `sub-` occurrence), so the claim "the subject
field equals that token" fails as stated. -/
theorem C3_counterexample :
    containsSubTokenB "sub-A_sub-B_task.nii" "sub-A" = true ∧
    initSubField "sub-A_sub-B_task.nii" "t1w.nii" "template.nii" "outp" ≠ some "sub-A" ∧
    initSubField "sub-A_sub-B_task.nii" "t1w.nii" "template.nii" "outp" = some "sub-B" :=
  ⟨by decide, by decide, by decide⟩

/-- C9: when no `sub-` occurrence of the modality filename is followed by a
later underscore, the subject regex of line 37 finds no match and the
unconditional `.group()` raises `AttributeError` out of the constructor:
the subject token is mandatory. -/
theorem C9_sub_regex_mandatory (modf t1wf tempf opath : String)
    (h : tokThenUnderscore subTok modf.data = false) :
    name_resource_init modf t1wf tempf opath
      = Except.error (PyExc.attributeError attrErrMsg) :=
  name_resource_init_error modf t1wf tempf opath
    (tokenSearch_none_of_no_underscore subTok modf.data (by decide) h)

/-- C9 witness: `sub-01.nii` has a `sub-` token but no underscore after it,
so the constructor raises. -/
theorem C9_sub_regex_mandatory_witness :
    tokThenUnderscore subTok ("sub-01.nii".data) = false ∧
    name_resource_init "sub-01.nii" "t1w.nii" "temp.nii" "/out"
      = Except.error (PyExc.attributeError attrErrMsg) :=
  ⟨by decide, C9_sub_regex_mandatory "sub-01.nii" "t1w.nii" "temp.nii" "/out" (by decide)⟩

/-- C4 counterexample: the filename `modality.nii` makes the `sub-` regex
fail, and the constructor then raises (`initOk` is `false`) instead of
producing a `None` field — so "a failure of any of the filename-token
regexes produces a None field rather than raising" is false for `sub-`. -/
theorem C4_counterexample :
    hasSubstr subTok ("modality.nii".data) = false ∧
    initOk "modality.nii" "t1w.nii" "temp.nii" "/out" = false :=
  ⟨by decide, by decide⟩

/-- C4 (amended): for the OPTIONAL tokens — `ses-`, `run-` on the modality
filename and `res-` on the template filename — a regex failure produces a
`None` field rather than an exception, and the `None` propagates into
output strings: with no `res-` token in the template filename,
`get_template_space` returns `space-X_res-None`.  (The `sub-` regex is the
exception: its failure raises, see the counterexample.) -/
theorem C4_optional_tokens_none (modf t1wf tempf opath : String)
    (hok : initOk modf t1wf tempf opath = true)
    (hses : hasSubstr sesTok modf.data = false)
    (hrun : hasSubstr runTok modf.data = false)
    (hres : hasSubstr resTok tempf.data = false) :
    initSesField modf t1wf tempf opath = some none ∧
    initRunField modf t1wf tempf opath = some none ∧
    initResField modf t1wf tempf opath = some none ∧
    initTemplateSpace modf t1wf tempf opath
      = some ("space-" ++ templateSpaceOf tempf ++ "_res-" ++ "None") := by
  obtain ⟨subm, hsub⟩ := initOk_some modf t1wf tempf opath hok
  have hok' := name_resource_init_ok modf t1wf tempf opath subm hsub
  have hsesn := tokenSearch_none_of_no_substr sesTok modf.data hses
  have hrunn := tokenSearch_none_of_no_substr runTok modf.data hrun
  have hresn := tokenSearch_none_of_no_substr resTok tempf.data hres
  refine ⟨?_, ?_, ?_, ?_⟩
  · unfold initSesField
    rw [hok', hsesn]
    rfl
  · unfold initRunField
    rw [hok', hrunn]
    rfl
  · unfold initResField
    rw [hok', hresn]
    rfl
  · unfold initTemplateSpace
    rw [hok', hresn]
    rfl

/-- C4 witness: `sub-9_t.nii` has a subject token but no session or run
token, and `MNI152NLin.nii` has no resolution token. -/
theorem C4_optional_tokens_none_witness :
    initOk "sub-9_t.nii" "t1w.nii" "MNI152NLin.nii" "/o" = true ∧
    hasSubstr sesTok ("sub-9_t.nii".data) = false ∧
    hasSubstr runTok ("sub-9_t.nii".data) = false ∧
    hasSubstr resTok ("MNI152NLin.nii".data) = false ∧
    initTemplateSpace "sub-9_t.nii" "t1w.nii" "MNI152NLin.nii" "/o"
      = some ("space-" ++ templateSpaceOf "MNI152NLin.nii" ++ "_res-" ++ "None") :=
  ⟨by decide, by decide, by decide, by decide,
    (C4_optional_tokens_none "sub-9_t.nii" "t1w.nii" "MNI152NLin.nii" "/o"
      (by decide) (by decide) (by decide) (by decide)).2.2.2⟩

/-- C5: with no `ses-` token in the modality filename the session field is
`None` and `get_outdir` returns `os.path.join` of the base output path and
the subject token only — no session path segment. -/
theorem C5_no_session (modf t1wf tempf opath : String)
    (hok : initOk modf t1wf tempf opath = true)
    (hses : hasSubstr sesTok modf.data = false) :
    initSesField modf t1wf tempf opath = some none ∧
    initOutdir modf t1wf tempf opath
      = (initSubField modf t1wf tempf opath).map (fun s => osPathJoin2 opath s) := by
  obtain ⟨subm, hsub⟩ := initOk_some modf t1wf tempf opath hok
  have hok' := name_resource_init_ok modf t1wf tempf opath subm hsub
  have hsesn := tokenSearch_none_of_no_substr sesTok modf.data hses
  constructor
  · unfold initSesField
    rw [hok', hsesn]
    rfl
  · unfold initOutdir initSubField
    rw [hok', hsesn]
    rfl

/-- C5 witness: a modality path with subject but no session. -/
theorem C5_no_session_witness :
    initOk "/b/sub-77_func.nii" "t1.nii" "MNI_res-2x2_T1w.nii" "/out" = true ∧
    hasSubstr sesTok ("/b/sub-77_func.nii".data) = false ∧
    initOutdir "/b/sub-77_func.nii" "t1.nii" "MNI_res-2x2_T1w.nii" "/out"
      = (initSubField "/b/sub-77_func.nii" "t1.nii" "MNI_res-2x2_T1w.nii" "/out").map
          (fun s => osPathJoin2 "/out" s) :=
  ⟨by decide, by decide,
    (C5_no_session "/b/sub-77_func.nii" "t1.nii" "MNI_res-2x2_T1w.nii" "/out"
      (by decide) (by decide)).2⟩

theorem splitDotUnderscore_ne_nil (l : List Char) : splitDotUnderscore l ≠ [] := by
  cases l with
  | nil => simp [splitDotUnderscore]
  | cons c cs =>
    simp only [splitDotUnderscore]
    split
    · simp
    · split <;> simp

theorem splitDotUnderscore_head (l : List Char) :
    (splitDotUnderscore l).headD []
      = l.takeWhile (fun c => !(c == '.' || c == '_')) := by
  induction l with
  | nil => rfl
  | cons c cs ih =>
    cases hc : (c == '.' || c == '_') with
    | true => simp [splitDotUnderscore, List.takeWhile, hc]
    | false =>
      cases hs : splitDotUnderscore cs with
      | nil => exact absurd hs (splitDotUnderscore_ne_nil cs)
      | cons p ps =>
        rw [hs] at ih
        simp only [splitDotUnderscore, hc, Bool.false_eq_true, if_false, hs,
          List.takeWhile, Bool.not_false]
        simp only [List.headD] at ih ⊢
        rw [ih]

/-- C7 (amended): `get_label` strips directory components and takes the
basename only up to the first dot OR UNDERSCORE (the source splits on the
character class `[._]`), then prefixes `label-`. -/
theorem C7_get_label (label : String) :
    get_label label
      = "label-" ++ String.mk ((osBasename label.data).takeWhile
          (fun c => !(c == '.' || c == '_'))) := by
  unfold get_label
  rw [splitDotUnderscore_head]

/-- C7 counterexample: for `/labels/my_atlas.nii.gz` the code yields
`label-my` (it also splits at the underscore), not the claimed
`label-my_atlas` (basename stripped of extensions only). -/
theorem C7_counterexample :
    get_label "/labels/my_atlas.nii.gz" = "label-my" ∧
    "label-" ++ String.mk (stripExtensions (osBasename ("/labels/my_atlas.nii.gz".data)))
      = "label-my_atlas" ∧
    get_label "/labels/my_atlas.nii.gz"
      ≠ "label-" ++ String.mk (stripExtensions (osBasename ("/labels/my_atlas.nii.gz".data))) :=
  ⟨by decide, by decide, by decide⟩

/-- C8: re-invoking `add_dirs` on the same object with the same `paths`,
`labels` and `label_dirs` yields the same `dirs` mapping and the same
flattened list of directory paths: the first call only (re)binds
`self.dirs` and leaves the output directory it reads unchanged, and the
source passes a fresh `[]` accumulator to `flatten`, so the second call
recomputes identical results (and `mkdir -p` on existing directories is a
no-op). -/
theorem C8_add_dirs_idempotent (nr : name_resource) (paths : List (String × String))
    (labels : List String) (label_dirs : List String) :
    (add_dirs (add_dirs nr paths labels label_dirs).1 paths labels label_dirs).1.dirs
      = (add_dirs nr paths labels label_dirs).1.dirs ∧
    (add_dirs (add_dirs nr paths labels label_dirs).1 paths labels label_dirs).2
      = (add_dirs nr paths labels label_dirs).2 :=
  ⟨rfl, rfl⟩

theorem flatten_eq_append (t : PyTree) (acc : List String) :
    flatten t acc = acc ++ leaves t := by
  have H : ∀ n (t : PyTree), sizeOf t ≤ n → ∀ acc, flatten t acc = acc ++ leaves t := by
    intro n
    induction n with
    | zero =>
      intro t ht
      exfalso
      cases t <;> simp at ht
    | succ n ih =>
      intro t ht acc
      match t with
      | PyTree.leaf s => simp [flatten, leaves]
      | PyTree.dict [] => simp [flatten, leaves]
      | PyTree.dict ((k, v) :: rest) =>
        have hsz : sizeOf (PyTree.dict ((k, v) :: rest)) ≤ n + 1 := ht
        simp only [PyTree.dict.sizeOf_spec, List.cons.sizeOf_spec, Prod.mk.sizeOf_spec] at hsz
        have h1 : sizeOf v ≤ n := by omega
        have h2 : sizeOf (PyTree.dict rest) ≤ n := by
          simp only [PyTree.dict.sizeOf_spec]
          omega
        calc flatten (PyTree.dict ((k, v) :: rest)) acc
            = flatten (PyTree.dict rest) (flatten v acc) := by simp [flatten]
          _ = flatten v acc ++ leaves (PyTree.dict rest) := ih _ h2 _
          _ = (acc ++ leaves v) ++ leaves (PyTree.dict rest) := by rw [ih _ h1 _]
          _ = acc ++ (leaves v ++ leaves (PyTree.dict rest)) := by rw [List.append_assoc]
          _ = acc ++ leaves (PyTree.dict ((k, v) :: rest)) := by simp [leaves]
  exact H (sizeOf t) t (Nat.le_refl _) acc

/-- C10: `flatten(d, [])` returns exactly the non-dict leaves of the
nested dictionary `d`; but the accumulator defaults to one shared mutable
list, so a second default-argument call — whose accumulator is the list
already filled by the first call — returns the first call's leaves
followed by them again, and is therefore not equal to the first result
whenever `d` has any leaf. -/
theorem C10_flatten_default (d : PyTree) (h : leaves d ≠ []) :
    flatten d [] = leaves d ∧
    flatten d (flatten d []) = leaves d ++ leaves d ∧
    flatten d (flatten d []) ≠ flatten d [] := by
  have h1 : flatten d [] = leaves d := by
    rw [flatten_eq_append]
    rfl
  have h2 : flatten d (flatten d []) = leaves d ++ leaves d := by
    rw [h1, flatten_eq_append]
  refine ⟨h1, h2, ?_⟩
  rw [h2, h1]
  intro he
  have hlen := congrArg List.length he
  rw [List.length_append] at hlen
  have : (leaves d).length = 0 := by omega
  exact h (List.length_eq_zero.mp this)

/-- C10 witness: a one-leaf dictionary. -/
theorem C10_flatten_default_witness :
    leaves (PyTree.dict [("a", PyTree.leaf "x")]) ≠ [] ∧
    flatten (PyTree.dict [("a", PyTree.leaf "x")])
        (flatten (PyTree.dict [("a", PyTree.leaf "x")]) [])
      ≠ flatten (PyTree.dict [("a", PyTree.leaf "x")]) [] :=
  ⟨by simp [leaves],
    (C10_flatten_default (PyTree.dict [("a", PyTree.leaf "x")]) (by simp [leaves])).2.2⟩

/-- C6: with the slice-timing-correction argument `file`, an absent
`--stc_file` option or one naming a file that `os.path.isfile` rejects
makes `main` terminate the process explicitly with a non-zero exit status
(`sys.exit` with a message exits with status 1), rather than proceed into
the pipeline. -/
theorem C6_stc_file_exit (stc_file : Option String) (isfile : String → Bool)
    (h : ∀ f, stc_file = some f → isfile f = false) :
    exitedNonzero (main_stc_check "file" stc_file isfile) = true := by
  cases stc_file with
  | none => rfl
  | some f =>
    have hf := h f rfl
    simp [main_stc_check, sys_exit, exitedNonzero, hf]

/-- C6 witness: missing file case and non-existent file case. -/
theorem C6_stc_file_exit_witness :
    exitedNonzero (main_stc_check "file" none (fun _ => false)) = true ∧
    exitedNonzero (main_stc_check "file" (some "/no/such/file") (fun _ => false)) = true :=
  ⟨C6_stc_file_exit none (fun _ => false) (fun _ h => by cases h),
    C6_stc_file_exit (some "/no/such/file") (fun _ => false) (fun _ _ => rfl)⟩

theorem runExtCalls_none (env : WEnv) (hext : ∀ n, env.ext n = none) :
    ∀ ns log, runExtCalls env ns log = (log ++ ns, none) := by
  intro ns
  induction ns with
  | nil => intro log; simp [runExtCalls]
  | cons n ns ih =>
    intro log
    rw [runExtCalls, hext n, ih (log ++ [n])]
    simp

/-- C2: whenever every external stage call returns normally (and the
star-import from ndmg.stats.qa_reg does not happen to bind `label_name`),
the worker — after a successful `name_resource` construction — executes
exactly the pre-loop stage calls and then raises `NameError` at the ROI
loop `for idx, label in enumerate(label_name)`, because `label_name` is
assigned nowhere in the function and is not a module global; graph
construction (`cor_graph`, `save_graph`), the QC-statistics save, and the
temporary-directory cleanup command are never executed. -/
theorem C2_worker_nameerror (env : WEnv) (func t1w atlas outdir : String)
    (labels : List String) (clean : Bool)
    (hext : ∀ n, env.ext n = none)
    (hqa : "label_name" ∉ env.qaRegExports)
    (hok : initOk func t1w atlas outdir = true) :
    (ndmg_func_worker env func t1w atlas outdir labels clean).2
        = Except.error (PyExc.nameError "label_name") ∧
    (ndmg_func_worker env func t1w atlas outdir labels clean).1 = workerCallsBeforeLoop ∧
    "connectome.cor_graph" ∉ (ndmg_func_worker env func t1w atlas outdir labels clean).1 ∧
    "connectome.save_graph" ∉ (ndmg_func_worker env func t1w atlas outdir labels clean).1 ∧
    "qc_func.save" ∉ (ndmg_func_worker env func t1w atlas outdir labels clean).1 ∧
    "mgu.execute_cmd_rm" ∉ (ndmg_func_worker env func t1w atlas outdir labels clean).1 := by
  obtain ⟨subm, hsub⟩ := initOk_some func t1w atlas outdir hok
  have hnr := name_resource_init_ok func t1w atlas outdir subm hsub
  have hlookup : "label_name" ∉ workerModuleGlobals ++ env.qaRegExports := by
    intro hmem
    rcases List.mem_append.mp hmem with hg | hg
    · revert hg
      decide
    · exact hqa hg
  have hw : ndmg_func_worker env func t1w atlas outdir labels clean
      = (workerCallsBeforeLoop, Except.error (PyExc.nameError "label_name")) := by
    unfold ndmg_func_worker
    rw [hnr, runExtCalls_none env hext workerCallsBeforeLoop []]
    simp [hlookup]
  rw [hw]
  exact ⟨rfl, rfl, by decide, by decide, by decide, by decide⟩

/-- C2 witness: the all-stages-succeed oracle with an empty star import. -/
theorem C2_worker_nameerror_witness :
    (∀ n, WEnv.ext ⟨fun _ => none, [], []⟩ n = none) ∧
    "label_name" ∉ WEnv.qaRegExports ⟨fun _ => none, [], []⟩ ∧
    initOk "/in/sub-01_bold.nii.gz" "t1w.nii" "MNI.nii" "/out" = true ∧
    (ndmg_func_worker ⟨fun _ => none, [], []⟩ "/in/sub-01_bold.nii.gz" "t1w.nii"
        "MNI.nii" "/out" ["lab.nii"] false).2
      = Except.error (PyExc.nameError "label_name") :=
  ⟨fun _ => rfl, by decide, by decide,
    (C2_worker_nameerror ⟨fun _ => none, [], []⟩ "/in/sub-01_bold.nii.gz" "t1w.nii"
      "MNI.nii" "/out" ["lab.nii"] false (fun _ => rfl) (by decide) (by decide)).1⟩

/-- C1: whatever exception the worker raises, `ndmg_func_pipeline` catches
it at the `try`/`except Exception` boundary, prints the formatted
traceback, and returns normally — nothing propagates to the caller. -/
theorem C1_pipeline_swallows (env : WEnv) (func t1w atlas outdir : String)
    (labels : List String) (clean : Bool) (e : PyExc)
    (h : (ndmg_func_worker env func t1w atlas outdir labels clean).2 = Except.error e) :
    (ndmg_func_pipeline env func t1w atlas outdir labels clean).2 = Except.ok () ∧
    formatTraceback e ∈ (ndmg_func_pipeline env func t1w atlas outdir labels clean).1 := by
  rcases hw : ndmg_func_worker env func t1w atlas outdir labels clean with ⟨log, r⟩
  rw [hw] at h
  simp only at h
  subst h
  unfold ndmg_func_pipeline
  rw [hw]
  simp

/-- C1 witness: at the all-stages-succeed oracle the worker raises
`NameError` and the pipeline still returns normally, with the traceback in
its printed output. -/
theorem C1_pipeline_swallows_witness :
    (ndmg_func_worker ⟨fun _ => none, [], []⟩ "/d/sub-02_bold.nii" "t1.nii"
        "MNI.nii" "/o" ["l.nii"] true).2
      = Except.error (PyExc.nameError "label_name") ∧
    (ndmg_func_pipeline ⟨fun _ => none, [], []⟩ "/d/sub-02_bold.nii" "t1.nii"
        "MNI.nii" "/o" ["l.nii"] true).2 = Except.ok () ∧
    formatTraceback (PyExc.nameError "label_name")
      ∈ (ndmg_func_pipeline ⟨fun _ => none, [], []⟩ "/d/sub-02_bold.nii" "t1.nii"
          "MNI.nii" "/o" ["l.nii"] true).1 := by
  have h : (ndmg_func_worker ⟨fun _ => none, [], []⟩ "/d/sub-02_bold.nii" "t1.nii"
      "MNI.nii" "/o" ["l.nii"] true).2
      = Except.error (PyExc.nameError "label_name") := rfl
  exact ⟨h, C1_pipeline_swallows ⟨fun _ => none, [], []⟩ "/d/sub-02_bold.nii" "t1.nii"
    "MNI.nii" "/o" ["l.nii"] true (PyExc.nameError "label_name") h⟩
